import Mathlib

/-!
Shallow embedding of `src/main.py` (YouTube -> Telegram streaming API) and
proofs about its specified behaviour.

Modelling conventions:
  * monotonic time (`time.monotonic`, a float) is modelled by `ℤ` (integer clock readings; all limiter logic
    uses only order comparisons and subtraction of the integer window, so
    integer-valued readings capture every behaviour the claims mention);
  * the in-memory bucket table `_buckets : Dict[Tuple[str,str], Deque[float]]`
    is modelled by a total function `RLKey → List ℤ` (absent key = empty
    deque, which is exactly what `setdefault(key, deque())` provides);
  * a deque is a list whose head is the front (`popleft` removes the head,
    `append` adds at the back);
  * raising `HTTPException(status, detail)` is modelled by returning
    `Except.error (status, detail)`;
  * external collaborators (the yt-dlp subprocess, the YouTube Data API,
    the Telegram upload, MongoDB) are oracles: their outcome for the one
    call the code makes is passed in as a parameter.
-/

/-- HTTP-exception payload: status code and detail string. -/
abbrev HErr := ℕ × String

/-- Rate-limiter key, `(ip, request.url.path)` as built in the dependency
returned by `_limiter`. -/
abbrev RLKey := String × String

/-- Embeds the eviction loop of `_limiter`:
`while q and q[0] < cutoff: q.popleft()` — repeatedly drop the front
element while it is strictly below the cutoff. -/
def evict (cutoff : ℤ) : List ℤ → List ℤ
  | [] => []
  | t :: ts => if t < cutoff then evict cutoff ts else t :: ts

/-- Embeds the body of the dependency returned by
`_limiter(max_requests, window_seconds)` at one call: compute
`cutoff = now - window_seconds`, evict expired timestamps from the front of
the bucket of `key`, then either reject (429, bucket left as evicted) when
`len(q) >= max_requests`, or admit and append `now`.  The `Bool` is `true`
for an admitted request and `false` for a raised 429. -/
def allow (maxRequests windowSeconds : ℕ) (key : RLKey) (now : ℤ)
    (bk : RLKey → List ℤ) : Bool × (RLKey → List ℤ) :=
  if maxRequests ≤ (evict (now - (windowSeconds : ℤ)) (bk key)).length then
    (false, Function.update bk key (evict (now - (windowSeconds : ℤ)) (bk key)))
  else
    (true, Function.update bk key (evict (now - (windowSeconds : ℤ)) (bk key) ++ [now]))

/-- Runs a sequence of limiter calls, threading the bucket table, and
collects the admit/reject outcomes in order. -/
def allowSeq (maxRequests windowSeconds : ℕ) (calls : List (RLKey × ℤ))
    (bk : RLKey → List ℤ) : List Bool × (RLKey → List ℤ) :=
  match calls with
  | [] => ([], bk)
  | (k, t) :: rest =>
    let r := allow maxRequests windowSeconds k t bk
    let rs := allowSeq maxRequests windowSeconds rest r.2
    (r.1 :: rs.1, rs.2)

/-- Number of recorded timestamps inside the closed window
`[now - window_seconds, now]`. -/
def countClosed (windowSeconds : ℕ) (now : ℤ) (l : List ℤ) : ℕ :=
  (l.filter (fun t => decide (now - (windowSeconds : ℤ) ≤ t) && decide (t ≤ now))).length

/-- Number of recorded timestamps inside the half-open window
`(now - window_seconds, now]` (the interval the spec text names). -/
def countOpen (windowSeconds : ℕ) (now : ℤ) (l : List ℤ) : ℕ :=
  (l.filter (fun t => decide (now - (windowSeconds : ℤ) < t) && decide (t ≤ now))).length

/-- Initial bucket table: no key has recorded timestamps. -/
def emptyBuckets : RLKey → List ℤ := fun _ => []

/-- Key used in the concrete spec scenario. -/
def c3key : RLKey := ("1.2.3.4", "/search")

/-- Calls at the given times, all with the scenario key. -/
def c3calls (ts : List ℤ) : List (RLKey × ℤ) := ts.map (fun t => (c3key, t))

/-- Bucket table holding a single recorded timestamp `0` for the scenario
key (the state after one admitted call at time `0`). -/
def oneBucket : RLKey → List ℤ := Function.update emptyBuckets c3key [0]

/-! ## Basic properties of the eviction loop and of `allow` -/

theorem evict_length_le (c : ℤ) (l : List ℤ) : (evict c l).length ≤ l.length := by
  induction l with
  | nil => exact Nat.le_refl _
  | cons t ts ih =>
    simp only [evict]
    split
    · exact Nat.le_succ_of_le ih
    · exact Nat.le_refl _

theorem evict_eq_self {c : ℤ} {l : List ℤ} (h : ∀ x ∈ l, ¬ x < c) :
    evict c l = l := by
  cases l with
  | nil => rfl
  | cons t ts => simp [evict, h t (List.mem_cons_self t ts)]

theorem evict_eq_filter {c : ℤ} : ∀ {l : List ℤ}, l.Sorted (· ≤ ·) →
    evict c l = l.filter (fun t => !decide (t < c)) := by
  intro l
  induction l with
  | nil => intro _; rfl
  | cons t ts ih =>
    intro hs
    rw [List.sorted_cons] at hs
    by_cases h : t < c
    · simp [evict, h, ih hs.2]
    · have hts : ts.filter (fun x => !decide (x < c)) = ts :=
        List.filter_eq_self.mpr (fun b hb => by
          simp only [Bool.not_eq_true', decide_eq_false_iff_not]
          exact not_lt.mpr (le_trans (not_lt.mp h) (hs.1 b hb)))
      simp [evict, h, hts]

theorem allow_snd_apply_ne (m w : ℕ) (k k' : RLKey) (now : ℤ)
    (bk : RLKey → List ℤ) (h : k' ≠ k) :
    (allow m w k now bk).2 k' = bk k' := by
  unfold allow
  split <;> simp [Function.update_noteq h]

theorem allow_fst_eq_of_apply_eq (m w : ℕ) (k : RLKey) (now : ℤ)
    (bk1 bk2 : RLKey → List ℤ) (h : bk1 k = bk2 k) :
    (allow m w k now bk1).1 = (allow m w k now bk2).1 := by
  unfold allow
  rw [h]
  split <;> rfl

theorem allowSeq_snd_apply_ne (m w : ℕ) (k' : RLKey) :
    ∀ (calls : List (RLKey × ℤ)) (bk : RLKey → List ℤ),
      (∀ c ∈ calls, c.1 ≠ k') → (allowSeq m w calls bk).2 k' = bk k' := by
  intro calls
  induction calls with
  | nil => intro bk _; rfl
  | cons c rest ih =>
    intro bk h
    obtain ⟨k, t⟩ := c
    simp only [allowSeq]
    rw [ih _ (fun d hd => h d (List.mem_cons_of_mem _ hd))]
    exact allow_snd_apply_ne m w k k' t bk (Ne.symm (h (k, t) (List.mem_cons_self _ _)))

/-- When every recorded timestamp of the key is at least the cutoff, the
eviction loop removes nothing. -/
theorem allow_eq_of_fresh (m w : ℕ) (k : RLKey) (t : ℤ) (bk : RLKey → List ℤ)
    (h : ∀ x ∈ bk k, ¬ x < t - (w : ℤ)) :
    allow m w k t bk =
      if m ≤ (bk k).length then (false, Function.update bk k (bk k))
      else (true, Function.update bk k (bk k ++ [t])) := by
  unfold allow
  rw [evict_eq_self h]

/-- Outcome pattern of a burst of calls on one key whose times all lie in
`[base, base + w]`, starting from a bucket whose entries are all at least
`base`: the first `m - len` calls are admitted and every further call is
rejected. -/
theorem allowSeq_within (m w : ℕ) (k : RLKey) (base : ℤ) :
    ∀ (ts : List ℤ) (bk : RLKey → List ℤ),
      (∀ x ∈ bk k, base ≤ x) →
      (∀ t ∈ ts, base ≤ t ∧ t ≤ base + (w : ℤ)) →
      (allowSeq m w (ts.map (fun t => (k, t))) bk).1 =
        List.replicate (min ts.length (m - (bk k).length)) true ++
        List.replicate (ts.length - (m - (bk k).length)) false := by
  intro ts
  induction ts with
  | nil => intro bk _ _; simp [allowSeq]
  | cons t ts ih =>
    intro bk hbk hts
    have ht := hts t (List.mem_cons_self _ _)
    have hfresh : ∀ x ∈ bk k, ¬ x < t - (w : ℤ) := by
      intro x hx
      have h1 : base ≤ x := hbk x hx
      have h2 : t ≤ base + (w : ℤ) := ht.2
      omega
    by_cases hm : m ≤ (bk k).length
    · have hall : allow m w k t bk = (false, Function.update bk k (bk k)) := by
        rw [allow_eq_of_fresh m w k t bk hfresh, if_pos hm]
      simp only [List.map_cons, allowSeq, hall]
      rw [ih (Function.update bk k (bk k))
            (by rw [Function.update_same]; exact hbk)
            (fun x hx => hts x (List.mem_cons_of_mem _ hx))]
      rw [Function.update_same]
      have h0 : m - (bk k).length = 0 := Nat.sub_eq_zero_of_le hm
      simp [h0, List.replicate_succ]
    · have hall : allow m w k t bk = (true, Function.update bk k (bk k ++ [t])) := by
        rw [allow_eq_of_fresh m w k t bk hfresh, if_neg hm]
      simp only [List.map_cons, allowSeq, hall]
      have hb' : ∀ x ∈ Function.update bk k (bk k ++ [t]) k, base ≤ x := by
        rw [Function.update_same]
        intro x hx
        rcases List.mem_append.mp hx with hx | hx
        · exact hbk x hx
        · rw [List.mem_singleton.mp hx]; exact ht.1
      rw [ih _ hb' (fun x hx => hts x (List.mem_cons_of_mem _ hx))]
      simp only [Function.update_same, List.length_append, List.length_singleton,
        List.length_cons, List.length_nil]
      have hn : (bk k).length < m := Nat.lt_of_not_le hm
      have e1 : min (ts.length + 1) (m - (bk k).length) =
          min ts.length (m - ((bk k).length + 1)) + 1 := by omega
      have e2 : ts.length + 1 - (m - (bk k).length) =
          ts.length - (m - ((bk k).length + 1)) := by omega
      rw [e1, e2, List.replicate_succ, List.cons_append]

/-- Under a sorted bucket all of whose entries are at most `now`, the
post-eviction length is exactly the number of timestamps in the closed
window `[now - w, now]`. -/
theorem countClosed_eq_evict_length {w : ℕ} {now : ℤ} {l : List ℤ}
    (hs : l.Sorted (· ≤ ·)) (hb : ∀ t ∈ l, t ≤ now) :
    countClosed w now l = (evict (now - (w : ℤ)) l).length := by
  rw [evict_eq_filter hs]
  unfold countClosed
  congr 1
  apply List.filter_congr
  intro t ht
  have h1 : t ≤ now := hb t ht
  by_cases h2 : t < now - (w : ℤ)
  · simp [h1, h2, not_le.mpr h2]
  · simp [h1, h2, not_lt.mp h2]

/-! ## Claim theorems about the rate limiter -/

/-- C1 counterexample: the claim names the half-open window
`(now - window_seconds, now]`, but the eviction comparison `q[0] < cutoff`
keeps a timestamp that equals `now - window_seconds`.  With
`max_requests = 1`, `window_seconds = 60`, one admitted call at time `0`
and a second call at time `60`: the half-open window `(0, 60]` contains no
recorded timestamp, `0 < 1`, yet the call is rejected. -/
theorem C1_counterexample :
    countOpen 60 60 ((allow 1 60 c3key 0 emptyBuckets).2 c3key) = 0 ∧
    (0 : ℕ) < 1 ∧
    (allow 1 60 c3key 60 ((allow 1 60 c3key 0 emptyBuckets).2)).1 = false := by
  decide

/-- C1 (amended): for a bucket whose recorded timestamps are sorted and at
most `now` (which monotonic call times guarantee), `allow` admits and
appends `now` exactly when the number of timestamps in the closed window
`[now - window_seconds, now]` is below `max_requests`, and otherwise
rejects without appending; and a burst of `max_requests + 1` calls on one
key whose times all lie within one window admits exactly the first
`max_requests` of them and rejects the last. -/
theorem C1_allow_closed_window :
    (∀ (m w : ℕ) (k : RLKey) (now : ℤ) (bk : RLKey → List ℤ),
        (bk k).Sorted (· ≤ ·) → (∀ t ∈ bk k, t ≤ now) →
        (((allow m w k now bk).1 = true ↔ countClosed w now (bk k) < m) ∧
         ((allow m w k now bk).1 = true →
            (allow m w k now bk).2 k = evict (now - (w : ℤ)) (bk k) ++ [now]) ∧
         ((allow m w k now bk).1 = false →
            (allow m w k now bk).2 k = evict (now - (w : ℤ)) (bk k)))) ∧
    (∀ (m w : ℕ) (k : RLKey) (base : ℤ) (ts : List ℤ) (bk : RLKey → List ℤ),
        bk k = [] → ts.length = m + 1 →
        (∀ t ∈ ts, base ≤ t ∧ t ≤ base + (w : ℤ)) →
        (allowSeq m w (ts.map (fun t => (k, t))) bk).1 =
          List.replicate m true ++ [false]) := by
  constructor
  · intro m w k now bk hs hb
    have hcc : countClosed w now (bk k) = (evict (now - (w : ℤ)) (bk k)).length :=
      countClosed_eq_evict_length hs hb
    unfold allow
    split
    · next h =>
      refine ⟨⟨fun hf => by simp at hf, fun hlt => by rw [hcc] at hlt; omega⟩,
              fun ht => by simp at ht, fun _ => ?_⟩
      simp [Function.update_same]
    · next h =>
      refine ⟨⟨fun _ => by rw [hcc]; omega, fun _ => rfl⟩, fun _ => ?_,
              fun hf => by simp at hf⟩
      simp [Function.update_same]
  · intro m w k base ts bk hempty hlen hts
    rw [allowSeq_within m w k base ts bk (by rw [hempty]; intro x hx; cases hx) hts,
      hempty, hlen]
    have e1 : min (m + 1) (m - ([] : List ℤ).length) = m := by
      simp only [List.length_nil]; omega
    have e2 : m + 1 - (m - ([] : List ℤ).length) = 1 := by
      simp only [List.length_nil]; omega
    rw [e1, e2, List.replicate_one]

/-- C1 witness: the amended theorem applied at `max = 1, window = 60` on a
one-entry bucket, and the burst part at `max = 2` on calls at times
`0, 1, 2`. -/
theorem C1_witness :
    ((allow 1 60 c3key 60 oneBucket).1 = true ↔
      countClosed 60 60 (oneBucket c3key) < 1) ∧
    (allowSeq 2 60 (c3calls [0, 1, 2]) emptyBuckets).1 = [true, true, false] :=
  ⟨(C1_allow_closed_window.1 1 60 c3key 60 oneBucket (by decide) (by decide)).1,
   (C1_allow_closed_window.2 2 60 c3key 0 [0, 1, 2] emptyBuckets rfl rfl
      (by decide) : _)⟩

/-- C2: with a sorted bucket, the admit decision of `allow` is taken on the
bucket with every timestamp strictly older than `now - window_seconds`
removed (eviction happens before the count check); and a key whose bucket
is full (at most `max_requests` entries, at least one) admits again as soon
as `now` has advanced past `window_seconds` after the first (front)
recorded call. -/
theorem C2_eviction_sliding_window :
    (∀ (m w : ℕ) (k : RLKey) (now : ℤ) (bk : RLKey → List ℤ),
        (bk k).Sorted (· ≤ ·) →
        ((allow m w k now bk).1 = true ↔
          ((bk k).filter (fun t => !decide (t < now - (w : ℤ)))).length < m)) ∧
    (∀ (m w : ℕ) (k : RLKey) (now : ℤ) (bk : RLKey → List ℤ) (t0 : ℤ)
        (rest : List ℤ),
        bk k = t0 :: rest → (bk k).length ≤ m → t0 < now - (w : ℤ) →
        (allow m w k now bk).1 = true) := by
  constructor
  · intro m w k now bk hs
    unfold allow
    rw [evict_eq_filter hs]
    split
    · next h => exact ⟨fun hf => by simp at hf, fun hlt => by omega⟩
    · next h => exact ⟨fun _ => by omega, fun _ => rfl⟩
  · intro m w k now bk t0 rest hbk hlen hold
    have hlt : (evict (now - (w : ℤ)) (bk k)).length < m := by
      rw [hbk]
      have h1 : evict (now - (w : ℤ)) (t0 :: rest) = evict (now - (w : ℤ)) rest := by
        simp [evict, hold]
      rw [h1]
      have h2 := evict_length_le (now - (w : ℤ)) rest
      rw [hbk] at hlen
      simp only [List.length_cons] at hlen
      omega
    unfold allow
    rw [if_neg (by omega)]

/-- C2 witness: a key exhausted at `max = 1` by a call at time `0` admits
again at time `61`, and the decision at time `61` is taken on the filtered
bucket. -/
theorem C2_witness :
    ((allow 1 60 c3key 61 oneBucket).1 = true ↔
      ((oneBucket c3key).filter (fun t => !decide (t < 61 - (60 : ℤ)))).length < 1) ∧
    (allow 1 60 c3key 61 oneBucket).1 = true :=
  ⟨C2_eviction_sliding_window.1 1 60 c3key 61 oneBucket (by decide),
   C2_eviction_sliding_window.2 1 60 c3key 61 oneBucket 0 [] (by decide) (by decide)
     (by decide)⟩

/-- C3 counterexample: with `max = 5, window = 60` and one key, calls at
times `0, 1, 2, 3, 4, 5` give `[true, true, true, true, true, false]` —
the call at `t = 5` is the sixth call inside the window and is rejected,
while the claim says calls at `t = 0` through `t = 5` all return true. -/
theorem C3_counterexample :
    (allowSeq 5 60 (c3calls [0, 1, 2, 3, 4, 5]) emptyBuckets).1
      = [true, true, true, true, true, false] := by decide

/-- C3 (amended): with `max = 5, window = 60` and one key, the calls at
`t = 0, 1, 2, 3, 4` return true, the calls at `t = 5` and `t = 6` return
false, and the call at `t = 61` returns true again. -/
theorem C3_scenario :
    (allowSeq 5 60 (c3calls [0, 1, 2, 3, 4, 5, 6, 61]) emptyBuckets).1
      = [true, true, true, true, true, false, false, true] := by decide

/-- C8: any sequence of `allow` calls on one key leaves the bucket of a
distinct key unchanged, and the admit/reject outcome of a subsequent call
on the distinct key is the same as if the sequence had not happened. -/
theorem C8_per_key_isolation (m w : ℕ) (k1 k2 : RLKey) (h : k1 ≠ k2)
    (ts : List ℤ) (bk : RLKey → List ℤ) (now : ℤ) :
    (allowSeq m w (ts.map (fun t => (k1, t))) bk).2 k2 = bk k2 ∧
    (allow m w k2 now ((allowSeq m w (ts.map (fun t => (k1, t))) bk).2)).1
      = (allow m w k2 now bk).1 := by
  have hfr : (allowSeq m w (ts.map (fun t => (k1, t))) bk).2 k2 = bk k2 :=
    allowSeq_snd_apply_ne m w k2 _ bk (by
      intro c hc
      obtain ⟨t, _, rfl⟩ := List.mem_map.mp hc
      exact h)
  exact ⟨hfr, allow_fst_eq_of_apply_eq m w k2 now _ bk hfr⟩

/-- C8 witness: exhausting key `("10.0.0.1", "/a")` at `max = 1` leaves key
`("10.0.0.2", "/a")` untouched. -/
theorem C8_witness :
    (allowSeq 1 60 ([0, 1].map (fun t => ((("10.0.0.1", "/a") : RLKey), t)))
        emptyBuckets).2 ("10.0.0.2", "/a") = emptyBuckets ("10.0.0.2", "/a") ∧
    (allow 1 60 ("10.0.0.2", "/a") 1
        ((allowSeq 1 60 ([0, 1].map (fun t => ((("10.0.0.1", "/a") : RLKey), t)))
          emptyBuckets).2)).1
      = (allow 1 60 ("10.0.0.2", "/a") 1 emptyBuckets).1 :=
  C8_per_key_isolation 1 60 ("10.0.0.1", "/a") ("10.0.0.2", "/a") (by decide)
    [0, 1] emptyBuckets 1

/-- C10: if every bucket holds at most `max_requests` timestamps, then
after one `allow` call (admitted or rejected) every bucket still holds at
most `max_requests` timestamps: an admitted call appends only after the
post-eviction count was checked to be below the limit, and a rejected call
appends nothing. -/
theorem C10_bucket_length_invariant (m w : ℕ) (k : RLKey) (now : ℤ)
    (bk : RLKey → List ℤ) (hinv : ∀ k', (bk k').length ≤ m) :
    ∀ k', (((allow m w k now bk).2) k').length ≤ m := by
  intro k'
  by_cases hk : k' = k
  · subst hk
    unfold allow
    split
    · next h =>
      simp only [Function.update_same]
      exact le_trans (evict_length_le _ _) (hinv k')
    · next h =>
      simp only [Function.update_same, List.length_append, List.length_singleton]
      omega
  · rw [allow_snd_apply_ne m w k k' now bk hk]
    exact hinv k'

/-- C10 witness: the invariant applied at `max = 2` to the empty table and
read back at the scenario key. -/
theorem C10_witness :
    (((allow 2 60 c3key 0 emptyBuckets).2) c3key).length ≤ 2 :=
  C10_bucket_length_invariant 2 60 c3key 0 emptyBuckets
    (fun _ => Nat.zero_le 2) c3key

/-! ## Authentication (`get_api_key`) -/

/-- Python truthiness of an optional header string: present and non-empty. -/
def truthy : Option String → Bool
  | none => false
  | some s => s ≠ ""

/-- Embeds the token-selection cascade of `get_api_key`:
`api-key` if truthy, else `x-api-key` if truthy, else the payload of a
truthy `Authorization` header that starts with `"Bearer "` (the guarded
`replace("Bearer ", "", 1)` removes that 7-character front, which is the
first occurrence).  `startswith` is modelled as equality of the first seven
characters. -/
def extractToken (api_key x_api_key authorization : Option String) :
    Option String :=
  if truthy api_key then api_key
  else if truthy x_api_key then x_api_key
  else
    match authorization with
    | some a =>
      if a ≠ "" ∧ a.data.take 7 = "Bearer ".data then some (String.mk (a.data.drop 7))
      else none
    | none => none

/-- Embeds `get_api_key`: accept (return `True`) exactly when the selected
token is truthy and `hmac.compare_digest(token, API_KEY)` holds, i.e. the
token equals the configured secret; otherwise raise 403. -/
def get_api_key (secret : String) (api_key x_api_key authorization : Option String) :
    Bool :=
  match extractToken api_key x_api_key authorization with
  | some t => decide (t ≠ "") && decide (t = secret)
  | none => false

/-- Property named by C5: a credential equal to the secret is presented in
at least one of the three supported forms. -/
def presentsValidCredential (secret : String)
    (api_key x_api_key authorization : Option String) : Prop :=
  api_key = some secret ∨ x_api_key = some secret ∨
    authorization = some ("Bearer " ++ secret)

theorem bearer_append_ne_empty (k : String) : ("Bearer " ++ k) ≠ "" := by
  intro h
  have hd : ("Bearer " ++ k).data = "".data := congrArg String.data h
  rw [String.data_append] at hd
  exact absurd (List.append_eq_nil.mp hd).1 (by decide)

theorem bearer_take (k : String) : ("Bearer " ++ k).data.take 7 = "Bearer ".data := by
  rw [String.data_append]
  exact List.take_left' rfl

theorem bearer_drop (k : String) : String.mk (("Bearer " ++ k).data.drop 7) = k := by
  rw [String.data_append,
    List.drop_left' (show ("Bearer ".data).length = 7 from rfl)]

theorem extractToken_first (k : String) (x auth : Option String) (hk : k ≠ "") :
    extractToken (some k) x auth = some k := by
  unfold extractToken
  rw [if_pos (by simp [truthy, hk])]

theorem extractToken_second (k : String) (auth : Option String) (hk : k ≠ "") :
    extractToken none (some k) auth = some k := by
  unfold extractToken
  rw [if_neg (by simp [truthy]), if_pos (by simp [truthy, hk])]

theorem extractToken_bearer (k : String) :
    extractToken none none (some ("Bearer " ++ k)) = some k := by
  unfold extractToken
  rw [if_neg (by simp [truthy]), if_neg (by simp [truthy])]
  show (if ("Bearer " ++ k) ≠ "" ∧ ("Bearer " ++ k).data.take 7 = "Bearer ".data
        then some (String.mk (("Bearer " ++ k).data.drop 7)) else none) = some k
  rw [if_pos ⟨bearer_append_ne_empty k, bearer_take k⟩, bearer_drop k]

/-- C5 counterexample: with secret `"s3cret"`, the request presenting a
wrong `api-key` header together with a correct `x-api-key` header presents
a credential equal to the secret in a supported form, yet authentication
fails, because the cascade only ever compares the first present header. -/
theorem C5_counterexample :
    presentsValidCredential "s3cret" (some "wrong") (some "s3cret") none ∧
    get_api_key "s3cret" (some "wrong") (some "s3cret") none = false := by
  exact ⟨Or.inr (Or.inl rfl), by decide⟩

/-- C5 (amended): authentication succeeds iff the single credential
selected by the precedence `api-key`, then `x-api-key`, then the Bearer
payload of `Authorization`, is non-empty and equals the configured
(non-empty) secret.  In particular, when exactly one form is presented,
acceptance holds iff that credential equals the secret, and an absent
credential is rejected — so absent, malformed and mismatched credentials
are rejected uniformly across the three forms. -/
theorem C5_auth_precedence (secret : String) (hs : secret ≠ "") :
    (∀ a x auth, get_api_key secret a x auth = true ↔
        extractToken a x auth = some secret) ∧
    (∀ k, get_api_key secret (some k) none none = true ↔ k = secret) ∧
    (∀ k, get_api_key secret none (some k) none = true ↔ k = secret) ∧
    (∀ k, get_api_key secret none none (some ("Bearer " ++ k)) = true ↔ k = secret) ∧
    get_api_key secret none none none = false := by
  have hmain : ∀ a x auth, get_api_key secret a x auth = true ↔
      extractToken a x auth = some secret := by
    intro a x auth
    unfold get_api_key
    cases he : extractToken a x auth with
    | none => simp
    | some t =>
      simp only [Bool.and_eq_true, decide_eq_true_eq, Option.some.injEq]
      constructor
      · exact fun h => h.2
      · intro h
        exact ⟨h ▸ hs, h⟩
  refine ⟨hmain, ?_, ?_, ?_, ?_⟩
  · intro k
    rw [hmain]
    by_cases hk : k = ""
    · subst hk
      rw [show extractToken (some "") none none = none from rfl]
      exact ⟨fun h => Option.noConfusion h, fun h => absurd h.symm hs⟩
    · rw [extractToken_first k none none hk]
      simp
  · intro k
    rw [hmain]
    by_cases hk : k = ""
    · subst hk
      rw [show extractToken none (some "") none = none from rfl]
      exact ⟨fun h => Option.noConfusion h, fun h => absurd h.symm hs⟩
    · rw [extractToken_second k none hk]
      simp
  · intro k
    rw [hmain, extractToken_bearer k]
    simp
  · rfl

/-- C5 witness: the amended theorem applied with secret `"tok"` to each
single-form presentation. -/
theorem C5_witness :
    (get_api_key "tok" (some "tok") none none = true ↔ "tok" = "tok") ∧
    (get_api_key "tok" none (some "tok") none = true ↔ "tok" = "tok") ∧
    (get_api_key "tok" none none (some ("Bearer " ++ "tok")) = true ↔ "tok" = "tok") ∧
    get_api_key "tok" none none none = false :=
  ⟨(C5_auth_precedence "tok" (by decide)).2.1 "tok",
   (C5_auth_precedence "tok" (by decide)).2.2.1 "tok",
   (C5_auth_precedence "tok" (by decide)).2.2.2.1 "tok",
   (C5_auth_precedence "tok" (by decide)).2.2.2.2⟩

/-! ## Telegram relay (`send_to_telegram`) and download (`download_mp3`) -/

/-- Embeds `send_to_telegram` given the size of the file and the outcome
the Telegram API would return.  The first component is the result
(`HTTPException` as `Except.error`), the second records whether the upload
POST to the Telegram endpoint was issued at all. -/
def send_to_telegram (fileSize : ℕ) (uploadOk : Bool) : Except HErr Unit × Bool :=
  if 50 * 1024 * 1024 < fileSize then
    (Except.error (400, "File size exceeds 50MB limit"), false)
  else if uploadOk then (Except.ok (), true)
  else (Except.error (502, "Telegram upload failed"), true)

/-- Outcome of the single `run_yt_dlp` invocation made by `download_mp3`:
the subprocess timed out (`HTTPException 504`), exited non-zero
(`HTTPException 502`), or succeeded. -/
inductive YtdlpRun where
  | timedOut
  | failed
  | ok
deriving DecidableEq

/-- Oracle for one `/download` request: the yt-dlp outcome, the directory
listing of the temporary directory afterwards, the extracted file size and
the Telegram upload outcome. -/
structure DownloadEnv where
  ytdlp : YtdlpRun
  files : List String
  fileSize : ℕ
  telegramOk : Bool

/-- Response of `download_mp3`. -/
inductive DlOut where
  | fileResponse (path : String)
  | httpError (status : ℕ) (detail : String)
deriving DecidableEq

/-- Embeds `download_mp3`.  The second component records whether the
temporary directory is removed by the end of the request (directly or via
the scheduled background task).  `HTTPException`s raised inside the `try`
block hit `except HTTPException: raise`, which re-raises without removing
`temp_dir`; only the generic `except Exception` arm and the success path
(background task) remove it. -/
def download_mp3 (env : DownloadEnv) : DlOut × Bool :=
  match env.ytdlp with
  | .timedOut => (.httpError 504 "yt-dlp timed out", false)
  | .failed => (.httpError 502 "yt-dlp failed", false)
  | .ok =>
    match env.files with
    | [] => (.httpError 500 "MP3 not found after download", false)
    | f :: _ =>
      match send_to_telegram env.fileSize env.telegramOk with
      | (.error e, _) => (.httpError e.1 e.2, false)
      | (.ok _, _) => (.fileResponse f, true)

/-- C4: the claim holds for the error category but not for cleanup.  A
`/download` request whose yt-dlp resolution exceeds its timeout produces
the timeout error 504, but the temporary directory is NOT released: the
`HTTPException` raised by `run_yt_dlp` is re-raised by
`except HTTPException: raise` before the cleanup code in the generic
`except Exception` arm, and the background cleanup task is only scheduled
on the success path.  The second component `false` records the leak. -/
theorem C4_timeout_leaves_tempdir :
    download_mp3 ⟨.timedOut, [], 0, false⟩
      = (.httpError 504 "yt-dlp timed out", false) := by
  decide

/-- C6: whenever the extracted file size strictly exceeds the fixed
50 MiB ceiling, `send_to_telegram` fails with the client-facing
payload-too-large error and never issues the upload request. -/
theorem C6_size_check_before_upload (fileSize : ℕ) (uploadOk : Bool)
    (h : 50 * 1024 * 1024 < fileSize) :
    send_to_telegram fileSize uploadOk
      = (Except.error (400, "File size exceeds 50MB limit"), false) := by
  unfold send_to_telegram
  rw [if_pos h]

/-- C6 witness: one byte over the ceiling. -/
theorem C6_witness :
    send_to_telegram 52428801 true
      = (Except.error (400, "File size exceeds 50MB limit"), false) :=
  C6_size_check_before_upload 52428801 true (by decide)

/-! ## Search results and the `/stream` endpoint -/

/-- Result record shape shared by the primary provider and the fallback:
title, identifier, canonical URL (the dict appended in `youtube_search`). -/
structure SearchItem where
  title : String
  videoId : String
  url : String
deriving DecidableEq

/-- Embeds the query-resolution step of `stream`: when a truthy `query` is
given without a truthy `url`, take the first search result or raise 404;
otherwise keep `url` as supplied. -/
def streamUrl (url query : Option String) (searchRes : List SearchItem) :
    Except HErr (Option String) :=
  if truthy query && !truthy url then
    match searchRes with
    | [] => Except.error (404, "No video found")
    | r :: _ => Except.ok (some r.url)
  else Except.ok url

/-- Embeds the `stream` endpoint body given the search results for the
query and the outcome of the `run_yt_dlp --get-url` call.  The `Bool`
records whether a Mongo-insert failure was logged (the insert is wrapped
in `try/except` that only logs).  The response never depends on
`mongoOk`. -/
def stream (url query : Option String) (searchRes : List SearchItem)
    (resolve : Except HErr String) (mongoOk : Bool) :
    Except HErr (String × String) × Bool :=
  match streamUrl url query searchRes with
  | Except.error e => (Except.error e, false)
  | Except.ok none => (Except.error (400, "You must provide url or query"), false)
  | Except.ok (some u) =>
    if u = "" then (Except.error (400, "You must provide url or query"), false)
    else
      match resolve with
      | Except.error e => (Except.error e, false)
      | Except.ok out => (Except.ok (out, u), !mongoOk)

/-- C7: the response of `stream` never depends on the persistence outcome,
and in particular a request with a resolvable URL returns the successful
structured result `{direct_url, youtube_url}` even when the Mongo insert
fails. -/
theorem C7_persistence_best_effort (url query : Option String)
    (sr : List SearchItem) (res : Except HErr String) (mongoOk : Bool)
    (u out : String) :
    ((stream url query sr res mongoOk).1 = (stream url query sr res true).1) ∧
    (url = some u → u ≠ "" → res = Except.ok out →
      (stream url query sr res mongoOk).1 = Except.ok (out, u)) := by
  constructor
  · unfold stream
    split
    · rfl
    · rfl
    · split
      · rfl
      · split <;> rfl
  · intro hurl hu hres
    subst hurl
    subst hres
    have hsu : streamUrl (some u) query sr = Except.ok (some u) := by
      unfold streamUrl
      rw [if_neg (by simp [truthy, hu])]
    unfold stream
    simp only [hsu]
    rw [if_neg hu]

/-- C7 witness: a direct URL resolved successfully returns the structured
result although the Mongo insert failed. -/
theorem C7_witness :
    (stream (some "https://youtu.be/x") none [] (Except.ok "https://cdn/audio")
        false).1
      = Except.ok ("https://cdn/audio", "https://youtu.be/x") :=
  (C7_persistence_best_effort (some "https://youtu.be/x") none []
      (Except.ok "https://cdn/audio") false "https://youtu.be/x"
      "https://cdn/audio").2 rfl (by decide) rfl

/-! ## `youtube_search` with yt-dlp fallback -/

/-- One line of the line-delimited `--dump-json` output of the fallback:
either not parseable as JSON (skipped by the `except json.JSONDecodeError:
continue` arm), or a JSON object with the fields `youtube_search` reads
(`title`, `webpage_url`, `id`), each possibly absent. -/
inductive FallbackLine where
  | malformed
  | json (title webpage_url id : Option String)

/-- Embeds the per-line processing of the fallback loop in
`youtube_search`: keep a line when both `webpage_url` and `title` are
truthy, deriving `videoId` from `id` when truthy and otherwise from
`extract_video_id(webpage_url) or ""`.  `extract_video_id` parses URLs via
`urllib`; it is passed in as the oracle `extractId`. -/
def parseFallbackLine (extractId : String → Option String) :
    FallbackLine → Option SearchItem
  | .malformed => none
  | .json title wurl vid =>
    match wurl, title with
    | some u, some t =>
      if u ≠ "" ∧ t ≠ "" then
        some ⟨t, (match vid with
                  | some v0 => if v0 ≠ "" then v0 else (extractId u).getD ""
                  | none => (extractId u).getD ""), u⟩
      else none
    | _, _ => none

/-- Outcome of the Data-API search attempt in `youtube_search`: a result
list (built from the returned items), an `HttpError`, or an unexpected
exception — the latter two fall through to the fallback. -/
inductive PrimaryOutcome where
  | items (l : List SearchItem)
  | apiError
  | otherError

/-- Outcome of the single `run_yt_dlp --dump-json ytsearch...` call of the
fallback: its stdout lines, an `HTTPException` raised by `run_yt_dlp`
(re-raised by `except HTTPException: raise`), or another exception (the
fallback then returns `[]`). -/
inductive FallbackOutcome where
  | stdout (lines : List FallbackLine)
  | httpExc (e : HErr)
  | otherError

/-- Embeds the fallback block of `youtube_search`. -/
def ytdlpFallback (extractId : String → Option String) :
    FallbackOutcome → Except HErr (List SearchItem)
  | .stdout lines => Except.ok (lines.filterMap (parseFallbackLine extractId))
  | .httpExc e => Except.error e
  | .otherError => Except.ok []

/-- Embeds `youtube_search`: the primary Data-API attempt, falling back to
one yt-dlp search when the primary result list is empty or the attempt
raised.  The `ℕ` counts how many times the fallback (the `run_yt_dlp`
search call) is invoked. -/
def youtube_search (extractId : String → Option String)
    (primary : PrimaryOutcome) (fallback : FallbackOutcome) :
    Except HErr (List SearchItem) × ℕ :=
  match primary with
  | .items l =>
    if l.isEmpty then (ytdlpFallback extractId fallback, 1) else (Except.ok l, 0)
  | .apiError => (ytdlpFallback extractId fallback, 1)
  | .otherError => (ytdlpFallback extractId fallback, 1)

/-- C9: whenever the primary provider returns zero items or fails, the
fallback is invoked exactly once, its line-delimited output is mapped
line-by-line (one pass, no loop around the invocation), malformed lines
are skipped, and every well-formed line (truthy title and URL) yields a
result record of the shared shape carrying that title and URL. -/
theorem C9_fallback_once (extractId : String → Option String)
    (primary : PrimaryOutcome) (fallback : FallbackOutcome)
    (h : primary = .items [] ∨ primary = .apiError ∨ primary = .otherError) :
    (youtube_search extractId primary fallback).2 = 1 ∧
    (∀ lines, fallback = .stdout lines →
        (youtube_search extractId primary fallback).1
          = Except.ok (lines.filterMap (parseFallbackLine extractId))) ∧
    parseFallbackLine extractId .malformed = none ∧
    (∀ t u vid, t ≠ "" → u ≠ "" →
        ∃ r : SearchItem,
          parseFallbackLine extractId (.json (some t) (some u) vid) = some r ∧
          r.title = t ∧ r.url = u) := by
  have hy : youtube_search extractId primary fallback
      = (ytdlpFallback extractId fallback, 1) := by
    rcases h with h | h | h <;> subst h <;> rfl
  refine ⟨by rw [hy], ?_, rfl, ?_⟩
  · intro lines hf
    subst hf
    rw [hy]
    rfl
  · intro t u vid ht hu
    simp only [parseFallbackLine]
    rw [if_pos ⟨hu, ht⟩]
    exact ⟨_, rfl, rfl, rfl⟩

/-- Fallback stdout used by the C9 witness: one malformed line between two
well-formed ones. -/
def c9lines : List FallbackLine :=
  [.json (some "lofi mix") (some "https://www.youtube.com/watch?v=abc123") (some "abc123"),
   .malformed,
   .json (some "lofi beats") (some "https://www.youtube.com/watch?v=def456") none]

/-- C9 witness: a primary search returning zero items invokes the fallback
exactly once and returns the parsed fallback lines. -/
theorem C9_witness :
    (youtube_search (fun _ => none) (.items []) (.stdout c9lines)).2 = 1 ∧
    (youtube_search (fun _ => none) (.items []) (.stdout c9lines)).1
      = Except.ok (c9lines.filterMap (parseFallbackLine (fun _ => none))) :=
  ⟨(C9_fallback_once (fun _ => none) (.items []) (.stdout c9lines) (Or.inl rfl)).1,
   (C9_fallback_once (fun _ => none) (.items []) (.stdout c9lines)
      (Or.inl rfl)).2.1 c9lines rfl⟩
